import Mathlib

/-
Verification of the TinkerGraph Python binding core (graph.py, bindings.py,
exceptions.py): the handle-lifecycle and dual-state object model.

The host-side layer (TinkerGraph, Vertex, Edge, the error taxonomy, and the
string-retrieval broker operations) is embedded directly from the Python
source.  The native graph engine is an external collaborator reached only
through opaque handles; it is modelled from the specification of its
interface boundary (one handle set per element kind, counts authoritative,
fixed-buffer string retrieval).  Machine pointers are modelled as natural
numbers, with 0 playing the role of the null/failure sentinel.
-/

namespace TinkerGraphs

/-- Property values crossing the Python API: a small variant type standing
for the heterogeneous Python values used as vertex/edge properties and as
dynamically-typed arguments (a non-string constructor lets us model Python
calls that pass a non-`str` where a `str` is expected). -/
inductive Value where
  | vStr : String → Value
  | vInt : Int → Value
  | vBool : Bool → Value
  deriving DecidableEq, Repr

/-- A Python `dict` with string keys, as an insertion-ordered association
list (Python dicts preserve insertion order; keys are unique). -/
abbrev Props := List (String × Value)

/-- Python `d[k] = v`: replace the value in place when the key is present,
append otherwise (insertion-order semantics of Python dicts). -/
def dictSet {α β : Type} [DecidableEq α] (d : List (α × β)) (k : α) (v : β) :
    List (α × β) :=
  if d.any (fun kv => kv.1 = k) then
    d.map (fun kv => if kv.1 = k then (k, v) else kv)
  else d ++ [(k, v)]

/-- Python `d[k]` / `d.get(k)`: the value at key `k`, if present. -/
def dictGet {α β : Type} [DecidableEq α] (d : List (α × β)) (k : α) : Option β :=
  match d.find? (fun kv => kv.1 = k) with
  | some kv => some kv.2
  | none => none

/-- Python `del d[k]` / `d.pop(k, None)`: drop the entry at key `k`. -/
def dictDel {α β : Type} [DecidableEq α] (d : List (α × β)) (k : α) :
    List (α × β) :=
  d.filter (fun kv => kv.1 ≠ k)

/-- Boolean membership of a Nat in a list (used for handle bookkeeping). -/
def memB (x : Nat) (l : List Nat) : Bool :=
  l.any (fun y => x = y)

/-- Error taxonomy of exceptions.py.  `base` is the root class
`TinkerGraphError` raised directly (as `_check_not_closed` does); the other
constructors are its leaf subclasses.  Note the taxonomy defines no
`GraphClosed` and no `BufferTooSmall` kind. -/
inductive TinkerGraphError where
  | base : String → TinkerGraphError
  | nativeError : String → TinkerGraphError
  | libraryError : String → TinkerGraphError
  | vertexError : String → TinkerGraphError
  | edgeError : String → TinkerGraphError
  | memoryError : String → TinkerGraphError
  | validationError : String → TinkerGraphError
  | configurationError : String → TinkerGraphError
  deriving DecidableEq, Repr

/-- True exactly when the error is the root `TinkerGraphError` kind raised
directly, rather than one of its distinguishable leaf subclasses. -/
def isRootKind : TinkerGraphError → Bool
  | .base _ => true
  | _ => false

/-- Modelled from the spec: a native vertex, identified by its opaque handle
and carrying the id string the native side stores for it. -/
structure NativeVertex where
  handle : Nat
  nid : String
  deriving DecidableEq, Repr

/-- Modelled from the spec: a native edge, identified by its opaque handle
and carrying its label and the handles of its two endpoints. -/
structure NativeEdge where
  handle : Nat
  nlabel : String
  outHandle : Nat
  inHandle : Nat
  deriving DecidableEq, Repr

/-- Modelled from the spec: the state of one native graph instance behind
the opaque-handle interface.  `fresh` is the next unused handle (handles
start at 1; 0 is the null failure sentinel), `autoId` feeds native-assigned
vertex ids. -/
structure NativeGraph where
  verts : List NativeVertex
  edges : List NativeEdge
  fresh : Nat
  autoId : Nat
  deriving DecidableEq, Repr

/-- Modelled from the spec: `tinkergraph_add_vertex` — returns a fresh
handle, or the null sentinel (here `none`) on failure; vertex ids are
unique within a graph, so an explicit duplicate id fails, and a missing id
gets a native-assigned one. -/
def natAddVertex (n : NativeGraph) (idOpt : Option String) :
    Option (Nat × NativeGraph) :=
  match idOpt with
  | some i =>
    if n.verts.any (fun w => w.nid = i) then none
    else some (n.fresh,
      { n with verts := ⟨n.fresh, i⟩ :: n.verts, fresh := n.fresh + 1 })
  | none =>
    some (n.fresh,
      { n with verts := ⟨n.fresh, "v" ++ toString n.autoId⟩ :: n.verts,
               fresh := n.fresh + 1, autoId := n.autoId + 1 })

/-- Modelled from the spec: `tinkergraph_add_edge` — succeeds with a fresh
handle when both endpoint handles are live native vertices. -/
def natAddEdge (n : NativeGraph) (labelStr : String) (outH inH : Nat) :
    Option (Nat × NativeGraph) :=
  if n.verts.any (fun w => w.handle = outH) && n.verts.any (fun w => w.handle = inH) then
    some (n.fresh,
      { n with edges := ⟨n.fresh, labelStr, outH, inH⟩ :: n.edges,
               fresh := n.fresh + 1 })
  else none

/-- Modelled from the spec: `tinkergraph_destroy_vertex` — discharges the
destroy obligation for one vertex handle.  The host cascades edge removal
before destroying a vertex, so no native edge cascade is modelled. -/
def natDestroyVertex (n : NativeGraph) (h : Nat) : NativeGraph :=
  { n with verts := n.verts.filter (fun w => w.handle ≠ h) }

/-- Modelled from the spec: `tinkergraph_destroy_edge`. -/
def natDestroyEdge (n : NativeGraph) (h : Nat) : NativeGraph :=
  { n with edges := n.edges.filter (fun ne => ne.handle ≠ h) }

/-- Modelled from the spec: `tinkergraph_vertex_count` — the authoritative
vertex count of the native graph. -/
def natVertexCount (n : NativeGraph) : Nat := n.verts.length

/-- Modelled from the spec: `tinkergraph_edge_count`. -/
def natEdgeCount (n : NativeGraph) : Nat := n.edges.length

/-- Modelled from the spec: the fixed-buffer string contract — the native
side writes up to `bufSize` bytes into the caller-provided buffer (keeping
a terminating NUL, hence at most `bufSize - 1` characters of the string)
and returns the actual length of the full string. -/
def natWriteString (s : String) (bufSize : Nat) : Int × String :=
  ((s.length : Int), String.mk (s.data.take (bufSize - 1)))

/-- One invocation of the native function table made by a graph-mutation
operation (instrumentation used to observe whether a broker call happened). -/
inductive NativeCall where
  | callAddVertex : Option String → Props → NativeCall
  | callGetVertexId : Nat → NativeCall
  | callAddEdge : String → Nat → Nat → Props → NativeCall
  | callDestroyVertex : Nat → NativeCall
  | callDestroyEdge : Nat → NativeCall
  deriving DecidableEq, Repr

/-- `NativeGraphHandle.get_vertex_id` of bindings.py: allocate a
`buffer_size` buffer, call `tinkergraph_vertex_id`, raise a native error on
a negative result, otherwise decode the buffer contents (a not-found handle
is the native failure case returning a negative length). -/
def get_vertex_id (n : NativeGraph) (vertexPtr : Nat) (bufferSize : Nat) :
    Except TinkerGraphError String :=
  match n.verts.find? (fun w => w.handle = vertexPtr) with
  | none =>
    .error (.nativeError "Native operation get_vertex_id failed: Failed to retrieve vertex ID")
  | some w =>
    let r := natWriteString w.nid bufferSize
    if r.1 < 0 then
      .error (.nativeError "Native operation get_vertex_id failed: Failed to retrieve vertex ID")
    else .ok r.2

/-- `NativeGraphHandle.get_edge_label` of bindings.py, same buffer contract
as `get_vertex_id`. -/
def get_edge_label (n : NativeGraph) (edgePtr : Nat) (bufferSize : Nat) :
    Except TinkerGraphError String :=
  match n.edges.find? (fun ne => ne.handle = edgePtr) with
  | none =>
    .error (.nativeError "Native operation get_edge_label failed: Failed to retrieve edge label")
  | some ne =>
    let r := natWriteString ne.nlabel bufferSize
    if r.1 < 0 then
      .error (.nativeError "Native operation get_edge_label failed: Failed to retrieve edge label")
    else .ok r.2

/-- The `Vertex` wrapper of graph.py: weak back-reference to the owning
graph context (`graphRef`, the context identity, or `none` once the context
is reclaimed), the native pointer, id, label, the host-side property
overlay, and the disposed flag. -/
structure Vertex where
  graphRef : Option Nat
  ptr : Nat
  id : String
  label : String
  properties : Props
  disposed : Bool
  deriving DecidableEq, Repr

/-- The `Edge` wrapper of graph.py; endpoints are the `Vertex` wrapper
values handed to `add_edge`. -/
structure Edge where
  graphRef : Option Nat
  ptr : Nat
  id : String
  label : String
  outVertex : Vertex
  inVertex : Vertex
  properties : Props
  disposed : Bool
  deriving DecidableEq, Repr

/-- `Vertex.__eq__`: equality is (id, owning graph context identity); the
graph contexts are compared by object identity after resolving the weak
references (two collected references compare equal, as `None == None`). -/
def vertexEq (a b : Vertex) : Bool :=
  decide (a.id = b.id) && decide (a.graphRef = b.graphRef)

/-- An argument passed where graph.py expects a `Vertex`: either an actual
wrapper or some other Python value (rejected by the `isinstance` check). -/
inductive VertexArg where
  | isVertex : Vertex → VertexArg
  | notVertex : String → VertexArg

/-- `_matches_properties` of graph.py: every filter key must be present in
the overlay and mapped to exactly the filter value. -/
def matchesProperties (props : Props) (filters : Props) : Bool :=
  filters.all (fun kv =>
    match dictGet props kv.1 with
    | some v => decide (v = kv.2)
    | none => false)

/-- `Vertex.get_property(key, default)`: read from the overlay, falling
back to the (possibly `None`, here `none`) default. -/
def get_property (v : Vertex) (key : String) (dflt : Option Value) : Option Value :=
  match dictGet v.properties key with
  | some x => some x
  | none => dflt

/-- `Vertex.set_property(key, value)`: overlay-only write (the key is a
string by the type of this embedding, so the `isinstance(key, str)`
validation always passes). -/
def set_property (v : Vertex) (key : String) (val : Value) : Vertex :=
  { v with properties := dictSet v.properties key val }

/-- `Vertex.remove_property(key)`: pop from the overlay, returning the
previous value (or `none`). -/
def remove_property (v : Vertex) (key : String) : Option Value × Vertex :=
  (dictGet v.properties key, { v with properties := dictDel v.properties key })

/-- The `TinkerGraph` graph context of graph.py: object identity `gid`
(Python object identity, used by the `is`/`==` comparisons and as the
target of the weak references held by wrappers), the native graph state, the two
registries `_vertices`/`_edges` keyed by native pointer, the internal id
counter, the closed flag, and the instrumentation log of the native calls
made by the mutating operations. -/
structure TinkerGraph where
  gid : Nat
  native : NativeGraph
  vertexReg : List (Nat × Vertex)
  edgeReg : List (Nat × Edge)
  vertexIdCounter : Nat
  closed : Bool
  natLog : List NativeCall
  deriving DecidableEq, Repr

/-- `TinkerGraph._check_not_closed`: raises the root `TinkerGraphError`
(not any leaf subclass) when the graph has been closed. -/
def checkNotClosed (g : TinkerGraph) : Except TinkerGraphError Unit :=
  if g.closed then .error (.base "Graph has been closed") else .ok ()

/-- `Vertex._cleanup` as observed on the owning graph context: when the
wrapper is not yet disposed, its pointer is non-null, and its weak
reference resolves to this very context, the native destroy is invoked
(failures swallowed); the disposed flag set on the wrapper held by the caller is not
tracked because the wrapper value leaves every registry at the same time. -/
def vertexCleanup (g : TinkerGraph) (v : Vertex) : TinkerGraph :=
  if v.disposed = false ∧ v.ptr ≠ 0 ∧ v.graphRef = some g.gid then
    { g with native := natDestroyVertex g.native v.ptr,
             natLog := g.natLog ++ [NativeCall.callDestroyVertex v.ptr] }
  else g

/-- `Edge._cleanup`, same shape as `vertexCleanup`. -/
def edgeCleanup (g : TinkerGraph) (e : Edge) : TinkerGraph :=
  if e.disposed = false ∧ e.ptr ≠ 0 ∧ e.graphRef = some g.gid then
    { g with native := natDestroyEdge g.native e.ptr,
             natLog := g.natLog ++ [NativeCall.callDestroyEdge e.ptr] }
  else g

/-- `TinkerGraph.close`: when not yet closed, clean up every registered
vertex and edge wrapper, empty both registries and set the closed flag;
a second call takes the early-return path.  `close` raises nothing, which
the total return type reflects. -/
def close (g : TinkerGraph) : TinkerGraph :=
  if g.closed then g
  else
    let g1 := (g.vertexReg.map Prod.snd).foldl vertexCleanup g
    let g2 := (g1.edgeReg.map Prod.snd).foldl edgeCleanup g1
    { g2 with vertexReg := [], edgeReg := [], closed := true }

/-- The Python `label` / `vertex_id` parameter check of `add_vertex`:
`None` and `str` values are admitted, everything else is a validation
failure (`none` result). -/
def asStr : Option Value → Option (Option String)
  | none => some none
  | some (Value.vStr s) => some (some s)
  | some _ => none

/-- `TinkerGraph.add_vertex(label, vertex_id, **properties)`: closed check,
parameter validation, default label `"vertex"`, the label folded into the
property set forwarded natively when non-default, native add-vertex call,
id recovery through `get_vertex_id` with the internal counter as fallback,
wrapper construction (carrying the original `properties`, not the forwarded
set) and registration. -/
def add_vertex (g : TinkerGraph) (label vertexId : Option Value)
    (props : Props) : (Except TinkerGraphError Vertex) × TinkerGraph :=
  match checkNotClosed g with
  | .error e => (.error e, g)
  | .ok _ =>
    match asStr label with
    | none => (.error (.validationError "Invalid parameter label: expected str or None"), g)
    | some labelOpt =>
      match asStr vertexId with
      | none => (.error (.validationError "Invalid parameter vertex_id: expected str or None"), g)
      | some idOpt =>
        let labelStr := labelOpt.getD "vertex"
        let allProps :=
          if labelStr ≠ "vertex" then dictSet props "label" (Value.vStr labelStr)
          else props
        let log1 := g.natLog ++ [NativeCall.callAddVertex idOpt allProps]
        match natAddVertex g.native idOpt with
        | none => (.error (.vertexError "Failed to add vertex"), { g with natLog := log1 })
        | some (ptr, native1) =>
          let r :=
            match idOpt with
            | some i => (i, g.vertexIdCounter, log1)
            | none =>
              match get_vertex_id native1 ptr 256 with
              | .ok i => (i, g.vertexIdCounter, log1 ++ [NativeCall.callGetVertexId ptr])
              | .error _ =>
                (toString g.vertexIdCounter, g.vertexIdCounter + 1,
                 log1 ++ [NativeCall.callGetVertexId ptr])
          let v : Vertex := ⟨some g.gid, ptr, r.1, labelStr, props, false⟩
          (.ok v, { g with native := native1,
                           vertexReg := dictSet g.vertexReg ptr v,
                           vertexIdCounter := r.2.1, natLog := r.2.2 })

/-- `TinkerGraph.add_edge(label, out_vertex, in_vertex, edge_id,
**properties)`: closed check, label `isinstance(str)` check (nothing more —
in particular no emptiness check), `isinstance(Vertex)` checks on both
endpoints, same-context check against the identity of this graph, native
add-edge call, default composite edge id, wrapper construction and
registration. -/
def add_edge (g : TinkerGraph) (label : Value) (outArg inArg : VertexArg)
    (edgeId : Option String) (props : Props) :
    (Except TinkerGraphError Edge) × TinkerGraph :=
  match checkNotClosed g with
  | .error e => (.error e, g)
  | .ok _ =>
    match label with
    | .vInt _ | .vBool _ =>
      (.error (.validationError "Invalid parameter label: expected str"), g)
    | .vStr labelStr =>
      match outArg with
      | .notVertex _ =>
        (.error (.validationError "Invalid parameter out_vertex: expected Vertex"), g)
      | .isVertex ov =>
        match inArg with
        | .notVertex _ =>
          (.error (.validationError "Invalid parameter in_vertex: expected Vertex"), g)
        | .isVertex iv =>
          if ov.graphRef ≠ some g.gid ∨ iv.graphRef ≠ some g.gid then
            (.error (.validationError "Vertices must belong to the same graph"), g)
          else
            let log1 := g.natLog ++ [NativeCall.callAddEdge labelStr ov.ptr iv.ptr props]
            match natAddEdge g.native labelStr ov.ptr iv.ptr with
            | none => (.error (.edgeError "Failed to add edge"), { g with natLog := log1 })
            | some (ptr, native1) =>
              let eid := edgeId.getD (ov.id ++ "-" ++ labelStr ++ "->" ++ iv.id)
              let e : Edge := ⟨some g.gid, ptr, eid, labelStr, ov, iv, props, false⟩
              (.ok e, { g with native := native1,
                               edgeReg := dictSet g.edgeReg ptr e, natLog := log1 })

/-- `TinkerGraph.vertex_count` (property): closed check, then the
authoritative native count — not the registry size. -/
def vertex_count (g : TinkerGraph) : Except TinkerGraphError Nat :=
  match checkNotClosed g with
  | .error e => .error e
  | .ok _ => .ok (natVertexCount g.native)

/-- `TinkerGraph.edge_count` (property). -/
def edge_count (g : TinkerGraph) : Except TinkerGraphError Nat :=
  match checkNotClosed g with
  | .error e => .error e
  | .ok _ => .ok (natEdgeCount g.native)

/-- `TinkerGraph.vertices(**properties)`: all registered vertex wrappers,
filtered by `_matches_properties` when a non-empty filter set is given. -/
def vertices (g : TinkerGraph) (filters : Props) :
    Except TinkerGraphError (List Vertex) :=
  match checkNotClosed g with
  | .error e => .error e
  | .ok _ =>
    let vs := g.vertexReg.map Prod.snd
    if filters.isEmpty then .ok vs
    else .ok (vs.filter (fun v => matchesProperties v.properties filters))

/-- `TinkerGraph.edges(**properties)`. -/
def edges (g : TinkerGraph) (filters : Props) :
    Except TinkerGraphError (List Edge) :=
  match checkNotClosed g with
  | .error e => .error e
  | .ok _ =>
    let es := g.edgeReg.map Prod.snd
    if filters.isEmpty then .ok es
    else .ok (es.filter (fun e => matchesProperties e.properties filters))

/-- `TinkerGraph.remove_edge(edge)`: closed check; when the pointer of the edge
is a registry key, clean the wrapper up natively and delete the key,
otherwise a silent no-op. -/
def remove_edge (g : TinkerGraph) (e : Edge) :
    (Except TinkerGraphError Unit) × TinkerGraph :=
  match checkNotClosed g with
  | .error er => (.error er, g)
  | .ok _ =>
    if g.edgeReg.any (fun kv => kv.1 = e.ptr) then
      let g1 := edgeCleanup g e
      (.ok (), { g1 with edgeReg := g1.edgeReg.filter (fun kv => kv.1 ≠ e.ptr) })
    else (.ok (), g)

/-- An edge is incident to `v` in the sense of the cascade selection of
`remove_vertex`: `e.out_vertex == v or e.in_vertex == v`, with `Vertex` equality
(id, owning context) — which is also the equality of §4.3 of the spec. -/
def incident (v : Vertex) (e : Edge) : Bool :=
  vertexEq e.outVertex v || vertexEq e.inVertex v

/-- `TinkerGraph.remove_vertex(vertex)`: closed check; when registered,
first remove every registered edge whose out- or in-endpoint equals the
vertex (the cascade), then clean the vertex up natively and delete its
registry key; a silent no-op when not registered. -/
def remove_vertex (g : TinkerGraph) (v : Vertex) :
    (Except TinkerGraphError Unit) × TinkerGraph :=
  match checkNotClosed g with
  | .error er => (.error er, g)
  | .ok _ =>
    if g.vertexReg.any (fun kv => kv.1 = v.ptr) then
      let edgesToRemove := (g.edgeReg.map Prod.snd).filter (fun e => incident v e)
      let g1 := edgesToRemove.foldl (fun a e => (remove_edge a e).2) g
      let g2 := vertexCleanup g1 v
      (.ok (), { g2 with vertexReg := g2.vertexReg.filter (fun kv => kv.1 ≠ v.ptr) })
    else (.ok (), g)

/-- `TinkerGraph.clear()`: remove all edges, then all vertices, through the
same per-element removal paths. -/
def clear (g : TinkerGraph) : (Except TinkerGraphError Unit) × TinkerGraph :=
  match checkNotClosed g with
  | .error er => (.error er, g)
  | .ok _ =>
    let g1 := (g.edgeReg.map Prod.snd).foldl (fun a e => (remove_edge a e).2) g
    let g2 := (g1.vertexReg.map Prod.snd).foldl (fun a v => (remove_vertex a v).2) g1
    (.ok (), g2)

/-- `TinkerGraph.__len__`: delegates to the `vertex_count` property, hence
shares its closed-graph failure. -/
def lenGraph (g : TinkerGraph) : Except TinkerGraphError Nat :=
  vertex_count g

/-- `TinkerGraph.__str__`: interpolates the `vertex_count` and `edge_count`
properties, hence shares their closed-graph failure. -/
def strGraph (g : TinkerGraph) : Except TinkerGraphError String :=
  match vertex_count g with
  | .error e => .error e
  | .ok vc =>
    match edge_count g with
    | .error e => .error e
    | .ok ec =>
      .ok ("TinkerGraph(vertices=" ++ toString vc ++ ", edges=" ++ toString ec ++ ")")

/-- `Vertex.out_edges(*labels)`: resolve the weak back-reference (`gOpt` is
the value of `self._graph()`); an absent context yields `[]`; otherwise
scan the edge registry of the context for edges whose out-endpoint equals this
vertex, filtered by label membership when labels were given. -/
def out_edges (gOpt : Option TinkerGraph) (v : Vertex) (labels : List String) :
    List Edge :=
  match gOpt with
  | none => []
  | some g =>
    let es := (g.edgeReg.map Prod.snd).filter (fun e => vertexEq e.outVertex v)
    if labels.isEmpty then es
    else es.filter (fun e => labels.any (fun l => e.label = l))

/-- `Vertex.in_edges(*labels)`. -/
def in_edges (gOpt : Option TinkerGraph) (v : Vertex) (labels : List String) :
    List Edge :=
  match gOpt with
  | none => []
  | some g =>
    let es := (g.edgeReg.map Prod.snd).filter (fun e => vertexEq e.inVertex v)
    if labels.isEmpty then es
    else es.filter (fun e => labels.any (fun l => e.label = l))

/-- `Vertex.both_edges(*labels)`. -/
def both_edges (gOpt : Option TinkerGraph) (v : Vertex) (labels : List String) :
    List Edge :=
  out_edges gOpt v labels ++ in_edges gOpt v labels

/-- `Vertex.out_vertices(*labels)`. -/
def out_vertices (gOpt : Option TinkerGraph) (v : Vertex) (labels : List String) :
    List Vertex :=
  (out_edges gOpt v labels).map Edge.inVertex

/-- `Vertex.in_vertices(*labels)`. -/
def in_vertices (gOpt : Option TinkerGraph) (v : Vertex) (labels : List String) :
    List Vertex :=
  (in_edges gOpt v labels).map Edge.outVertex

/-- `Vertex.both_vertices(*labels)`. -/
def both_vertices (gOpt : Option TinkerGraph) (v : Vertex) (labels : List String) :
    List Vertex :=
  out_vertices gOpt v labels ++ in_vertices gOpt v labels

/-- Host/native synchronization invariant of a graph context under normal
operation (§3 of the spec: every registry key is a not-yet-destroyed native
handle; wrappers are registered under their own pointer, belong to this
context, are undisposed and non-null). -/
def WF (g : TinkerGraph) : Prop :=
  (g.native.verts.map NativeVertex.handle).Nodup ∧
  (g.native.edges.map NativeEdge.handle).Nodup ∧
  (g.vertexReg.map Prod.fst).Nodup ∧
  (g.edgeReg.map Prod.fst).Nodup ∧
  (∀ kv ∈ g.vertexReg, kv.2.ptr = kv.1 ∧ kv.2.graphRef = some g.gid ∧
    kv.2.disposed = false ∧ kv.1 ≠ 0 ∧
    kv.1 ∈ g.native.verts.map NativeVertex.handle) ∧
  (∀ kv ∈ g.edgeReg, kv.2.ptr = kv.1 ∧ kv.2.graphRef = some g.gid ∧
    kv.2.disposed = false ∧ kv.1 ≠ 0 ∧
    kv.1 ∈ g.native.edges.map NativeEdge.handle)

instance decidableWF (g : TinkerGraph) : Decidable (WF g) := by
  unfold WF
  infer_instance

/-! ### Concrete example states used to instantiate the theorems -/

/-- A native graph holding one vertex (handle 1, id `"a"`) and one self-loop
edge (handle 2) on it. -/
def natW1 : NativeGraph := ⟨[⟨1, "a"⟩], [⟨2, "knows", 1, 1⟩], 3, 0⟩

/-- The registered wrapper of the vertex of `natW1`, owned by context 0. -/
def vA : Vertex := ⟨some 0, 1, "a", "vertex", [], false⟩

/-- The registered wrapper of the self-loop edge of `natW1`. -/
def eAA : Edge := ⟨some 0, 2, "a-knows->a", "knows", vA, vA, [], false⟩

/-- An open graph context over `natW1`: one vertex, one self-loop edge. -/
def gW1 : TinkerGraph := ⟨0, natW1, [(1, vA)], [(2, eAA)], 0, false, []⟩

/-- A freshly created native graph. -/
def natEmpty : NativeGraph := ⟨[], [], 1, 0⟩

/-- An already-closed graph context. -/
def gClosed : TinkerGraph := ⟨0, natEmpty, [], [], 0, true, []⟩

/-- A vertex wrapper with `name="Bob"` in its overlay. -/
def vBob : Vertex := ⟨some 0, 1, "b", "person", [("name", Value.vStr "Bob")], false⟩

/-- A vertex wrapper with `name="Carol"` in its overlay. -/
def vCarol : Vertex := ⟨some 0, 2, "c", "person", [("name", Value.vStr "Carol")], false⟩

/-- A native graph holding the two vertices behind `vBob` and `vCarol`. -/
def natW2 : NativeGraph := ⟨[⟨1, "b"⟩, ⟨2, "c"⟩], [], 3, 0⟩

/-- An open graph context with two registered vertices and no edges. -/
def gW2 : TinkerGraph := ⟨0, natW2, [(1, vBob), (2, vCarol)], [], 0, false, []⟩

/-- A vertex wrapper owned by a different graph context (identity 1). -/
def vOther : Vertex := ⟨some 1, 1, "x", "vertex", [], false⟩

/-- A native graph whose only vertex has a 10-character id, for exercising
the fixed-buffer retrieval with a 4-byte buffer. -/
def natW3 : NativeGraph := ⟨[⟨1, "0123456789"⟩], [], 2, 0⟩

/-! ### Infrastructure lemmas -/

theorem memB_cons (x y : Nat) (l : List Nat) :
    memB x (y :: l) = (decide (x = y) || memB x l) := rfl

theorem memB_iff (x : Nat) (l : List Nat) : memB x l = true ↔ x ∈ l := by
  unfold memB
  rw [List.any_eq_true]
  constructor
  · rintro ⟨y, hy, hxy⟩
    have hx : x = y := of_decide_eq_true hxy
    exact hx ▸ hy
  · intro hx
    exact ⟨x, hx, by simp⟩

theorem map_filter_eq {α β : Type} (f : α → β) (p : β → Bool) (l : List α) :
    (l.filter (fun a => p (f a))).map f = (l.map f).filter p := by
  induction l with
  | nil => rfl
  | cons a t ih =>
    by_cases h : p (f a) = true
    · simp [List.filter_cons, h, ih]
    · simp [List.filter_cons, h, ih]

theorem length_filter_ne (l : List Nat) (x : Nat) (hnd : l.Nodup) (hx : x ∈ l) :
    (l.filter (fun y => y ≠ x)).length + 1 = l.length := by
  induction l with
  | nil => cases hx
  | cons a t ih =>
    have hanotint : a ∉ t := (List.nodup_cons.mp hnd).1
    have hnd' : t.Nodup := (List.nodup_cons.mp hnd).2
    rcases List.mem_cons.mp hx with h | h
    · subst h
      have hft : t.filter (fun y => y ≠ x) = t := by
        apply List.filter_eq_self.mpr
        intro y hy
        simp only [decide_eq_true_eq]
        exact fun hya => hanotint (hya ▸ hy)
      have hcond : (decide (x ≠ x)) = false := by simp
      rw [List.filter_cons, hcond]
      simp only [Bool.false_eq_true, if_false, hft, List.length_cons]
    · have hax : ¬(a = x) := fun he => hanotint (he ▸ h)
      have hstep := ih hnd' h
      have hcond : (decide (a ≠ x)) = true := by simp [hax]
      rw [List.filter_cons, hcond]
      simp only [if_true, List.length_cons]
      omega

theorem find?_append_right {α : Type} (p : α → Bool) (l1 l2 : List α)
    (h : ∀ x ∈ l1, p x = false) : (l1 ++ l2).find? p = l2.find? p := by
  induction l1 with
  | nil => rfl
  | cons a t ih =>
    have ha := h a (by simp)
    simp only [List.cons_append, List.find?_cons, ha]
    exact ih (fun x hx => h x (by simp [hx]))

theorem find?_map_set {α β : Type} [DecidableEq α] (d : List (α × β)) (k : α) (v : β)
    (h : d.any (fun kv => kv.1 = k) = true) :
    (d.map (fun kv => if kv.1 = k then (k, v) else kv)).find?
      (fun kv => kv.1 = k) = some (k, v) := by
  induction d with
  | nil => simp at h
  | cons a t ih =>
    by_cases ha : a.1 = k
    · simp only [List.map_cons, if_pos ha]
      rw [List.find?_cons_of_pos _ (by simp)]
    · have ht : t.any (fun kv => kv.1 = k) = true := by
        simp only [List.any_cons, Bool.or_eq_true, decide_eq_true_eq] at h
        rcases h with h | h
        · exact absurd h ha
        · exact h
      simp only [List.map_cons, if_neg ha]
      rw [List.find?_cons_of_neg _ (by simp [ha])]
      exact ih ht

theorem dictGet_dictSet {α β : Type} [DecidableEq α] (d : List (α × β)) (k : α) (v : β) :
    dictGet (dictSet d k v) k = some v := by
  unfold dictSet
  by_cases h : d.any (fun kv => kv.1 = k) = true
  · rw [if_pos h]
    unfold dictGet
    rw [find?_map_set d k v h]
  · rw [if_neg h]
    unfold dictGet
    have hfail : ∀ x ∈ d, (decide (x.1 = k)) = false := by
      intro x hx
      simp only [List.any_eq_true, decide_eq_true_eq] at h
      simp only [decide_eq_false_iff_not]
      exact fun hxk => h ⟨x, hx, hxk⟩
    rw [find?_append_right _ d [(k, v)] hfail]
    rw [List.find?_cons_of_pos _ (by simp)]

theorem dictGet_dictDel {α β : Type} [DecidableEq α] (d : List (α × β)) (k : α) :
    dictGet (dictDel d k) k = none := by
  unfold dictGet dictDel
  rw [List.find?_eq_none.mpr]
  intro x hx
  rcases List.mem_filter.mp hx with ⟨_, hne⟩
  simp only [decide_eq_true_eq] at hne ⊢
  exact hne

theorem length_filter_not_memB (ps : List Nat) :
    ∀ l : List Nat, l.Nodup → ps.Nodup → (∀ p ∈ ps, p ∈ l) →
    (l.filter (fun y => !(memB y ps))).length + ps.length = l.length := by
  induction ps with
  | nil =>
    intro l _ _ _
    have hid : l.filter (fun y => !(memB y [])) = l :=
      List.filter_eq_self.mpr (fun y _ => rfl)
    rw [hid]
    simp
  | cons p ps ih =>
    intro l hl hps hsub
    have hpl : p ∈ l := hsub p (by simp)
    have hpnotin : p ∉ ps := (List.nodup_cons.mp hps).1
    have hps' : ps.Nodup := (List.nodup_cons.mp hps).2
    have hsplit : l.filter (fun y => !(memB y (p :: ps)))
        = (l.filter (fun y => y ≠ p)).filter (fun y => !(memB y ps)) := by
      rw [List.filter_filter]
      apply List.filter_congr
      intro y _
      rw [memB_cons, Bool.not_or, decide_not]
      exact (Bool.and_comm _ _).symm
    rw [hsplit]
    have hfl : (l.filter (fun y => y ≠ p)).Nodup := List.Nodup.filter _ hl
    have hsub' : ∀ q ∈ ps, q ∈ l.filter (fun y => y ≠ p) := by
      intro q hq
      apply List.mem_filter.mpr
      refine ⟨hsub q (by simp [hq]), ?_⟩
      simp only [decide_eq_true_eq]
      exact fun he => hpnotin (he ▸ hq)
    have h1 := ih (l.filter (fun y => y ≠ p)) hfl hps' hsub'
    have h2 := length_filter_ne l p hl hpl
    simp only [List.length_cons]
    omega

theorem not_memB_cons_eq (x p : Nat) (ps : List Nat) :
    (!(memB x (p :: ps))) = ((!(memB x ps)) && (decide (x ≠ p))) := by
  rw [memB_cons, Bool.not_or, decide_not]
  exact Bool.and_comm _ _

theorem filter_key_collapse {α : Type} (key : α → Nat) (p : Nat) (ps : List Nat)
    (l : List α) :
    ((l.filter (fun a => key a ≠ p)).filter (fun a => !(memB (key a) ps)))
      = l.filter (fun a => !(memB (key a) (p :: ps))) := by
  rw [List.filter_filter]
  apply List.filter_congr
  intro a _
  exact (not_memB_cons_eq _ _ _).symm

theorem matchesProperties_iff (props filters : Props) :
    matchesProperties props filters = true ↔
      ∀ kv ∈ filters, dictGet props kv.1 = some kv.2 := by
  unfold matchesProperties
  rw [List.all_eq_true]
  constructor
  · intro h kv hkv
    have hh := h kv hkv
    revert hh
    cases hg : dictGet props kv.1 with
    | none => simp
    | some v =>
      simp only [decide_eq_true_eq]
      intro hv
      rw [hv]
  · intro h kv hkv
    rw [h kv hkv]
    simp

theorem remove_edge_eq (g : TinkerGraph) (e : Edge)
    (hclosed : g.closed = false) (hmem : (e.ptr, e) ∈ g.edgeReg)
    (hd : e.disposed = false) (hp : e.ptr ≠ 0) (hr : e.graphRef = some g.gid) :
    (remove_edge g e).2
      = { g with native := natDestroyEdge g.native e.ptr,
                 natLog := g.natLog ++ [NativeCall.callDestroyEdge e.ptr],
                 edgeReg := g.edgeReg.filter (fun kv => kv.1 ≠ e.ptr) } := by
  have hany : g.edgeReg.any (fun kv => kv.1 = e.ptr) = true := by
    rw [List.any_eq_true]
    exact ⟨(e.ptr, e), hmem, by simp⟩
  simp only [remove_edge, checkNotClosed, hclosed, Bool.false_eq_true, if_false]
  rw [if_pos hany]
  unfold edgeCleanup
  rw [if_pos ⟨hd, hp, hr⟩]
  simp [hclosed]

theorem foldl_remove_edges (es : List Edge) :
    ∀ g : TinkerGraph, g.closed = false →
    (∀ e ∈ es, (e.ptr, e) ∈ g.edgeReg) →
    (∀ kv ∈ g.edgeReg, kv.2.ptr = kv.1 ∧ kv.2.graphRef = some g.gid ∧
      kv.2.disposed = false ∧ kv.1 ≠ 0) →
    (es.map Edge.ptr).Nodup →
    ((es.foldl (fun a e => (remove_edge a e).2) g).closed = false ∧
     (es.foldl (fun a e => (remove_edge a e).2) g).gid = g.gid ∧
     (es.foldl (fun a e => (remove_edge a e).2) g).vertexReg = g.vertexReg ∧
     (es.foldl (fun a e => (remove_edge a e).2) g).native.verts = g.native.verts ∧
     (es.foldl (fun a e => (remove_edge a e).2) g).edgeReg
       = g.edgeReg.filter (fun kv => !(memB kv.1 (es.map Edge.ptr))) ∧
     (es.foldl (fun a e => (remove_edge a e).2) g).native.edges
       = g.native.edges.filter (fun ne => !(memB ne.handle (es.map Edge.ptr)))) := by
  induction es with
  | nil =>
    intro g hclosed _ _ _
    refine ⟨hclosed, rfl, rfl, rfl, ?_, ?_⟩
    · exact (List.filter_eq_self.mpr (fun kv _ => rfl)).symm
    · exact (List.filter_eq_self.mpr (fun ne _ => rfl)).symm
  | cons e rest ih =>
    intro g hclosed hmem hreg hnd
    have hmem0 : (e.ptr, e) ∈ g.edgeReg := hmem e (by simp)
    obtain ⟨_, hgr, hdis, hne0⟩ := hreg (e.ptr, e) hmem0
    have hstep := remove_edge_eq g e hclosed hmem0 hdis hne0 hgr
    have hptrnotin : e.ptr ∉ rest.map Edge.ptr := (List.nodup_cons.mp hnd).1
    have hnd' : (rest.map Edge.ptr).Nodup := (List.nodup_cons.mp hnd).2
    rw [List.foldl_cons, hstep]
    set g1 : TinkerGraph :=
      { g with native := natDestroyEdge g.native e.ptr,
               natLog := g.natLog ++ [NativeCall.callDestroyEdge e.ptr],
               edgeReg := g.edgeReg.filter (fun kv => kv.1 ≠ e.ptr) } with hg1
    have hmem1 : ∀ e2 ∈ rest, (e2.ptr, e2) ∈ g1.edgeReg := by
      intro e2 he2
      apply List.mem_filter.mpr
      refine ⟨hmem e2 (by simp [he2]), ?_⟩
      simp only [decide_eq_true_eq]
      intro hcontra
      exact hptrnotin (hcontra ▸ List.mem_map_of_mem Edge.ptr he2)
    have hreg1 : ∀ kv ∈ g1.edgeReg, kv.2.ptr = kv.1 ∧ kv.2.graphRef = some g1.gid ∧
        kv.2.disposed = false ∧ kv.1 ≠ 0 := by
      intro kv hkv
      exact hreg kv (List.mem_filter.mp hkv).1
    obtain ⟨c1, c2, c3, c4, c5, c6⟩ := ih g1 hclosed hmem1 hreg1 hnd'
    refine ⟨c1, c2, c3, c4, ?_, ?_⟩
    · rw [c5]
      show (g.edgeReg.filter (fun kv => kv.1 ≠ e.ptr)).filter
            (fun kv => !(memB kv.1 (rest.map Edge.ptr)))
          = g.edgeReg.filter (fun kv => !(memB kv.1 (List.map Edge.ptr (e :: rest))))
      rw [filter_key_collapse Prod.fst e.ptr (rest.map Edge.ptr) g.edgeReg]
      rw [List.map_cons]
    · rw [c6]
      show (g.native.edges.filter (fun ne => ne.handle ≠ e.ptr)).filter
            (fun ne => !(memB ne.handle (rest.map Edge.ptr)))
          = g.native.edges.filter (fun ne => !(memB ne.handle (List.map Edge.ptr (e :: rest))))
      rw [filter_key_collapse NativeEdge.handle e.ptr (rest.map Edge.ptr) g.native.edges]
      rw [List.map_cons]

theorem remove_vertex_eq (g : TinkerGraph) (v : Vertex)
    (hopen : g.closed = false)
    (hany : g.vertexReg.any (fun kv => kv.1 = v.ptr) = true) :
    remove_vertex g v =
      (.ok (),
        { vertexCleanup
            (((g.edgeReg.map Prod.snd).filter (fun e => incident v e)).foldl
              (fun a e => (remove_edge a e).2) g) v with
          vertexReg :=
            (vertexCleanup
                (((g.edgeReg.map Prod.snd).filter (fun e => incident v e)).foldl
                  (fun a e => (remove_edge a e).2) g) v).vertexReg.filter
              (fun kv => kv.1 ≠ v.ptr) }) := by
  simp only [remove_vertex, checkNotClosed, hopen, Bool.false_eq_true, if_false]
  rw [if_pos hany]

/-- Claim C1: for every open graph G satisfying the host/native
synchronization invariant and every vertex v registered in G with exactly k
incident registered edges (incidence by the wrapper equality the cascade
uses, a self-loop counting once), `remove_vertex(v)` succeeds, decreases
`edge_count()` by exactly k and decreases `vertex_count()` by exactly 1. -/
theorem remove_vertex_cascade (g : TinkerGraph) (v : Vertex)
    (hwf : WF g) (hopen : g.closed = false) (hv : (v.ptr, v) ∈ g.vertexReg) :
    ∃ vc ec,
      vertex_count g = .ok vc ∧ edge_count g = .ok ec ∧
      (remove_vertex g v).1 = .ok () ∧ 1 ≤ vc ∧
      vertex_count (remove_vertex g v).2 = .ok (vc - 1) ∧
      ((g.edgeReg.map Prod.snd).filter (fun e => incident v e)).length ≤ ec ∧
      edge_count (remove_vertex g v).2
        = .ok (ec - ((g.edgeReg.map Prod.snd).filter (fun e => incident v e)).length) := by
  obtain ⟨hnv, hne, hkv, hke, hvreg, hereg⟩ := hwf
  obtain ⟨_, hvgr, hvdis, hvne0, hvmemnat⟩ := hvreg (v.ptr, v) hv
  have hany : g.vertexReg.any (fun kv => kv.1 = v.ptr) = true :=
    List.any_eq_true.mpr ⟨(v.ptr, v), hv, by simp⟩
  have hesmem : ∀ e ∈ (g.edgeReg.map Prod.snd).filter (fun e => incident v e),
      (e.ptr, e) ∈ g.edgeReg := by
    intro e he
    obtain ⟨kv, hkvmem, hkv2⟩ := List.mem_map.mp (List.mem_filter.mp he).1
    obtain ⟨hp, _, _, _, _⟩ := hereg kv hkvmem
    subst hkv2
    rw [hp]
    exact hkvmem
  have hreg4 : ∀ kv ∈ g.edgeReg, kv.2.ptr = kv.1 ∧ kv.2.graphRef = some g.gid ∧
      kv.2.disposed = false ∧ kv.1 ≠ 0 := by
    intro kv hkv
    obtain ⟨h1, h2, h3, h4, _⟩ := hereg kv hkv
    exact ⟨h1, h2, h3, h4⟩
  have hmapptr : ((g.edgeReg.map Prod.snd).filter (fun e => incident v e)).map Edge.ptr
      = (g.edgeReg.filter (fun kv => incident v kv.2)).map Prod.fst := by
    rw [← map_filter_eq Prod.snd (fun e => incident v e) g.edgeReg, List.map_map]
    apply List.map_congr_left
    intro kv hkv
    exact (hereg kv (List.mem_filter.mp hkv).1).1
  have hnodup : (((g.edgeReg.map Prod.snd).filter (fun e => incident v e)).map Edge.ptr).Nodup := by
    rw [hmapptr]
    exact List.Sublist.nodup (List.Sublist.map Prod.fst (List.filter_sublist g.edgeReg)) hke
  obtain ⟨c1, c2, c3, c4, c5, c6⟩ :=
    foldl_remove_edges ((g.edgeReg.map Prod.snd).filter (fun e => incident v e)) g
      hopen hesmem hreg4 hnodup
  have hclean : vertexCleanup
      (((g.edgeReg.map Prod.snd).filter (fun e => incident v e)).foldl
        (fun a e => (remove_edge a e).2) g) v =
      { (((g.edgeReg.map Prod.snd).filter (fun e => incident v e)).foldl
          (fun a e => (remove_edge a e).2) g) with
        native := natDestroyVertex
          ((((g.edgeReg.map Prod.snd).filter (fun e => incident v e)).foldl
            (fun a e => (remove_edge a e).2) g)).native v.ptr,
        natLog := ((((g.edgeReg.map Prod.snd).filter (fun e => incident v e)).foldl
            (fun a e => (remove_edge a e).2) g)).natLog
          ++ [NativeCall.callDestroyVertex v.ptr] } := by
    unfold vertexCleanup
    rw [if_pos ⟨hvdis, hvne0, by rw [c2]; exact hvgr⟩]
  have hrv : remove_vertex g v =
      (.ok (),
        { (((g.edgeReg.map Prod.snd).filter (fun e => incident v e)).foldl
            (fun a e => (remove_edge a e).2) g) with
          native := natDestroyVertex
            ((((g.edgeReg.map Prod.snd).filter (fun e => incident v e)).foldl
              (fun a e => (remove_edge a e).2) g)).native v.ptr,
          natLog := ((((g.edgeReg.map Prod.snd).filter (fun e => incident v e)).foldl
              (fun a e => (remove_edge a e).2) g)).natLog
            ++ [NativeCall.callDestroyVertex v.ptr],
          vertexReg := ((((g.edgeReg.map Prod.snd).filter (fun e => incident v e)).foldl
              (fun a e => (remove_edge a e).2) g)).vertexReg.filter
            (fun kv => kv.1 ≠ v.ptr) }) := by
    rw [remove_vertex_eq g v hopen hany, hclean]
  have hlenv : (g.native.verts.filter (fun w => w.handle ≠ v.ptr)).length + 1
      = g.native.verts.length := by
    have e1 := length_filter_ne (g.native.verts.map NativeVertex.handle) v.ptr hnv hvmemnat
    rw [← map_filter_eq NativeVertex.handle (fun y => y ≠ v.ptr) g.native.verts] at e1
    simp only [List.length_map] at e1
    exact e1
  have hsubptr : ∀ p ∈ ((g.edgeReg.map Prod.snd).filter (fun e => incident v e)).map Edge.ptr,
      p ∈ g.native.edges.map NativeEdge.handle := by
    intro p hp
    obtain ⟨e, he, hep⟩ := List.mem_map.mp hp
    obtain ⟨_, _, _, _, hmemnat⟩ := hereg (e.ptr, e) (hesmem e he)
    exact hep ▸ hmemnat
  have hlene : (g.native.edges.filter (fun ne =>
        !(memB ne.handle (((g.edgeReg.map Prod.snd).filter (fun e => incident v e)).map Edge.ptr)))).length
      + ((g.edgeReg.map Prod.snd).filter (fun e => incident v e)).length
      = g.native.edges.length := by
    have e1 := length_filter_not_memB
      (((g.edgeReg.map Prod.snd).filter (fun e => incident v e)).map Edge.ptr)
      (g.native.edges.map NativeEdge.handle) hne hnodup hsubptr
    rw [← map_filter_eq NativeEdge.handle
      (fun y => !(memB y (((g.edgeReg.map Prod.snd).filter (fun e => incident v e)).map Edge.ptr)))
      g.native.edges] at e1
    simp only [List.length_map] at e1
    exact e1
  refine ⟨g.native.verts.length, g.native.edges.length, ?_, ?_, ?_, ?_, ?_, ?_, ?_⟩
  · simp [vertex_count, checkNotClosed, hopen, natVertexCount]
  · simp [edge_count, checkNotClosed, hopen, natEdgeCount]
  · rw [hrv]
  · omega
  · rw [hrv]
    simp only [vertex_count, checkNotClosed, c1, Bool.false_eq_true, if_false,
      natVertexCount, natDestroyVertex, c4]
    have heq : (g.native.verts.filter (fun w => w.handle ≠ v.ptr)).length
        = g.native.verts.length - 1 := by omega
    rw [heq]
  · omega
  · rw [hrv]
    simp only [edge_count, checkNotClosed, c1, Bool.false_eq_true, if_false,
      natEdgeCount, natDestroyVertex, c6]
    have heq : (g.native.edges.filter (fun ne =>
          !(memB ne.handle (((g.edgeReg.map Prod.snd).filter (fun e => incident v e)).map Edge.ptr)))).length
        = g.native.edges.length
          - ((g.edgeReg.map Prod.snd).filter (fun e => incident v e)).length := by omega
    rw [heq]

/-- Claim C1 witness: the cascade theorem instantiated on a concrete graph
holding one vertex with one self-loop edge (k = 1). -/
theorem remove_vertex_cascade_witness :
    ∃ vc ec,
      vertex_count gW1 = .ok vc ∧ edge_count gW1 = .ok ec ∧
      (remove_vertex gW1 vA).1 = .ok () ∧ 1 ≤ vc ∧
      vertex_count (remove_vertex gW1 vA).2 = .ok (vc - 1) ∧
      ((gW1.edgeReg.map Prod.snd).filter (fun e => incident vA e)).length ≤ ec ∧
      edge_count (remove_vertex gW1 vA).2
        = .ok (ec - ((gW1.edgeReg.map Prod.snd).filter (fun e => incident vA e)).length) :=
  remove_vertex_cascade gW1 vA (by decide) (by decide) (by decide)

/-- Claim C2 counterexample: calling add_vertex on a closed graph fails
with the root TinkerGraphError kind itself, message "Graph has been
closed" — a generic error, not a distinguishable GraphClosed leaf kind
(the taxonomy embedded from exceptions.py has no GraphClosed constructor). -/
theorem closed_guard_generic_error :
    (add_vertex gClosed none none []).1 = .error (.base "Graph has been closed") ∧
    isRootKind (.base "Graph has been closed") = true :=
  ⟨rfl, rfl⟩

/-- Claim C2 (amended): for every graph on which close() has been called,
every subsequent call to any operation among add_vertex, add_edge,
vertices, edges, vertex_count, edge_count, remove_vertex, remove_edge and
clear fails — but with the root-kind error TinkerGraphError("Graph has
been closed") raised by _check_not_closed, the same generic kind for all
of them, rather than with a distinguishable GraphClosed leaf kind. -/
theorem closed_guard_all_ops (g : TinkerGraph) (hc : g.closed = true)
    (label vertexId : Option Value) (props : Props) (lab : Value)
    (outArg inArg : VertexArg) (edgeId : Option String) (filters : Props)
    (v : Vertex) (e : Edge) :
    (add_vertex g label vertexId props).1 = .error (.base "Graph has been closed") ∧
    (add_edge g lab outArg inArg edgeId props).1 = .error (.base "Graph has been closed") ∧
    vertices g filters = .error (.base "Graph has been closed") ∧
    edges g filters = .error (.base "Graph has been closed") ∧
    vertex_count g = .error (.base "Graph has been closed") ∧
    edge_count g = .error (.base "Graph has been closed") ∧
    (remove_vertex g v).1 = .error (.base "Graph has been closed") ∧
    (remove_edge g e).1 = .error (.base "Graph has been closed") ∧
    (clear g).1 = .error (.base "Graph has been closed") := by
  refine ⟨?_, ?_, ?_, ?_, ?_, ?_, ?_, ?_, ?_⟩ <;>
    simp [add_vertex, add_edge, vertices, edges, vertex_count, edge_count,
      remove_vertex, remove_edge, clear, checkNotClosed, hc]

/-- Claim C2 witness: the amended closed-state guard instantiated on a
concrete closed graph and concrete arguments for each operation. -/
theorem closed_guard_all_ops_witness :
    (add_vertex gClosed none none []).1 = .error (.base "Graph has been closed") ∧
    (add_edge gClosed (Value.vStr "knows") (VertexArg.isVertex vBob)
      (VertexArg.isVertex vCarol) none []).1 = .error (.base "Graph has been closed") ∧
    vertices gClosed [] = .error (.base "Graph has been closed") ∧
    edges gClosed [] = .error (.base "Graph has been closed") ∧
    vertex_count gClosed = .error (.base "Graph has been closed") ∧
    edge_count gClosed = .error (.base "Graph has been closed") ∧
    (remove_vertex gClosed vBob).1 = .error (.base "Graph has been closed") ∧
    (remove_edge gClosed eAA).1 = .error (.base "Graph has been closed") ∧
    (clear gClosed).1 = .error (.base "Graph has been closed") :=
  closed_guard_all_ops gClosed rfl none none [] (Value.vStr "knows")
    (VertexArg.isVertex vBob) (VertexArg.isVertex vCarol) none [] vBob eAA

/-- Claim C3 (evaluating the code at the failing input): get_vertex_id
called with buffer size 4 on a vertex whose native id "0123456789" has
length 10 (so the returned length meets/exceeds the buffer size) returns
the silently truncated string "012" as a success — it neither re-queries
with a larger buffer nor fails with a BufferTooSmall error (no such error
kind exists in the taxonomy); get_edge_label truncates the same way. -/
theorem broker_truncates_strings :
    get_vertex_id natW3 1 4 = .ok "012" ∧
    "012" ≠ "0123456789" ∧ 4 ≤ "0123456789".length ∧
    get_edge_label natW1 2 3 = .ok "kn" ∧
    "kn" ≠ "knows" ∧ 3 ≤ "knows".length := by
  refine ⟨rfl, by decide, by decide, rfl, by decide, by decide⟩

/-- Claim C4: add_edge on a vertex of this context and a vertex owned by a
different context always fails with a validation error, and the whole
graph state — in particular the native-call log — is returned unchanged,
so no native (broker) call is made before the failure. -/
theorem add_edge_cross_context (g : TinkerGraph) (a b : Vertex)
    (lab : Value) (edgeId : Option String) (props : Props) (gid2 : Nat)
    (hopen : g.closed = false)
    (ha : a.graphRef = some g.gid)
    (hb : b.graphRef = some gid2) (hne : gid2 ≠ g.gid) :
    ∃ msg, add_edge g lab (VertexArg.isVertex a) (VertexArg.isVertex b) edgeId props
      = (.error (.validationError msg), g) := by
  cases lab with
  | vInt n =>
    exact ⟨"Invalid parameter label: expected str",
      by simp [add_edge, checkNotClosed, hopen]⟩
  | vBool bb =>
    exact ⟨"Invalid parameter label: expected str",
      by simp [add_edge, checkNotClosed, hopen]⟩
  | vStr s =>
    refine ⟨"Vertices must belong to the same graph", ?_⟩
    have hcond : a.graphRef ≠ some g.gid ∨ b.graphRef ≠ some g.gid :=
      Or.inr (by rw [hb]; exact fun hcontra => hne (Option.some.inj hcontra))
    simp only [add_edge, checkNotClosed, hopen, Bool.false_eq_true, if_false]
    rw [if_pos hcond]

/-- Claim C4 witness: the cross-context rejection instantiated on a
concrete context (identity 0) and a vertex owned by context 1. -/
theorem add_edge_cross_context_witness :
    ∃ msg, add_edge gW2 (Value.vStr "knows") (VertexArg.isVertex vBob)
        (VertexArg.isVertex vOther) none []
      = (.error (.validationError msg), gW2) :=
  add_edge_cross_context gW2 vBob vOther (Value.vStr "knows") none [] 1
    rfl rfl rfl (by decide)

/-- Claim C5 counterexample: on a concrete open graph, add_edge with the
empty-string label does not fail with ValidationError — the empty string
passes the isinstance(str) check (the only label validation present), the
native add-edge call is made (the call log grows by one add-edge entry),
and the edge is created. -/
theorem add_edge_empty_label_accepted :
    (add_edge gW2 (Value.vStr "") (VertexArg.isVertex vBob)
        (VertexArg.isVertex vCarol) none []).1
      = .ok ⟨some 0, 3, "b-->c", "", vBob, vCarol, [], false⟩ ∧
    (add_edge gW2 (Value.vStr "") (VertexArg.isVertex vBob)
        (VertexArg.isVertex vCarol) none []).2.natLog
      = [NativeCall.callAddEdge "" 1 2 []] := by
  refine ⟨rfl, rfl⟩

/-- Claim C5 (amended): add_edge validates only that the label is a
string; a non-string label fails with ValidationError before any native
call (state returned unchanged), while any string label — the empty string
included — passes validation and is forwarded to the native add-edge call
(the call log grows by exactly that native invocation). -/
theorem add_edge_label_validation (g : TinkerGraph) (a b : Vertex)
    (s : String) (lab : Value) (edgeId : Option String) (props : Props)
    (hopen : g.closed = false)
    (ha : a.graphRef = some g.gid) (hb : b.graphRef = some g.gid)
    (hnostr : ∀ t, lab ≠ Value.vStr t) :
    (add_edge g lab (VertexArg.isVertex a) (VertexArg.isVertex b) edgeId props
       = (.error (.validationError "Invalid parameter label: expected str"), g)) ∧
    (∀ m, (add_edge g (Value.vStr s) (VertexArg.isVertex a) (VertexArg.isVertex b)
        edgeId props).1 ≠ .error (.validationError m)) ∧
    (add_edge g (Value.vStr s) (VertexArg.isVertex a) (VertexArg.isVertex b)
        edgeId props).2.natLog
      = g.natLog ++ [NativeCall.callAddEdge s a.ptr b.ptr props] := by
  have hcond : ¬(a.graphRef ≠ some g.gid ∨ b.graphRef ≠ some g.gid) := by
    rw [ha, hb]
    simp
  refine ⟨?_, ?_, ?_⟩
  · cases lab with
    | vStr t => exact absurd rfl (hnostr t)
    | vInt n => simp [add_edge, checkNotClosed, hopen]
    | vBool bb => simp [add_edge, checkNotClosed, hopen]
  · intro m
    simp only [add_edge, checkNotClosed, hopen, Bool.false_eq_true, if_false]
    rw [if_neg hcond]
    cases hna : natAddEdge g.native s a.ptr b.ptr with
    | none => simp
    | some pr =>
      obtain ⟨ptr, native1⟩ := pr
      simp
  · simp only [add_edge, checkNotClosed, hopen, Bool.false_eq_true, if_false]
    rw [if_neg hcond]
    cases hna : natAddEdge g.native s a.ptr b.ptr with
    | none => simp
    | some pr =>
      obtain ⟨ptr, native1⟩ := pr
      simp

/-- Claim C5 witness: the amended label validation instantiated with the
non-string label 3 and the empty-string label on a concrete open graph. -/
theorem add_edge_label_validation_witness :
    (add_edge gW2 (Value.vInt 3) (VertexArg.isVertex vBob) (VertexArg.isVertex vCarol)
        none []
       = (.error (.validationError "Invalid parameter label: expected str"), gW2)) ∧
    (∀ m, (add_edge gW2 (Value.vStr "") (VertexArg.isVertex vBob)
        (VertexArg.isVertex vCarol) none []).1 ≠ .error (.validationError m)) ∧
    (add_edge gW2 (Value.vStr "") (VertexArg.isVertex vBob) (VertexArg.isVertex vCarol)
        none []).2.natLog
      = gW2.natLog ++ [NativeCall.callAddEdge "" vBob.ptr vCarol.ptr []] :=
  add_edge_label_validation gW2 vBob vCarol "" (Value.vInt 3) none []
    rfl rfl rfl (fun t h => Value.noConfusion h)

/-- Helper: closing an already-closed graph takes the early-return path. -/
theorem close_of_closed (g : TinkerGraph) (hc : g.closed = true) : close g = g := by
  simp [close, hc]

/-- Claim C6: close is idempotent — a second close() is a no-op (and, the
return type being total, never raises), so the observable state after
close(); close() equals the state after a single close(); from an open
graph, that state has both registries empty and the closed flag set. -/
theorem close_idempotent (g : TinkerGraph) :
    close (close g) = close g ∧ (close g).closed = true ∧
    (g.closed = false → (close g).vertexReg = [] ∧ (close g).edgeReg = []) := by
  have hkey : (close g).closed = true ∧
      (g.closed = false → (close g).vertexReg = [] ∧ (close g).edgeReg = []) := by
    by_cases hc : g.closed = true
    · rw [close_of_closed g hc]
      exact ⟨hc, fun hopen => absurd hc (by simp [hopen])⟩
    · have hcf : g.closed = false := by simpa using hc
      refine ⟨by simp [close, hcf], fun _ => ⟨by simp [close, hcf], by simp [close, hcf]⟩⟩
  exact ⟨close_of_closed (close g) hkey.1, hkey⟩

/-- Claim C6 witness: idempotence of close instantiated on a concrete open
graph with one vertex and one edge. -/
theorem close_idempotent_witness :
    close (close gW1) = close gW1 ∧ (close gW1).closed = true ∧
    (close gW1).vertexReg = [] ∧ (close gW1).edgeReg = [] := by
  have h := close_idempotent gW1
  exact ⟨h.1, h.2.1, (h.2.2 rfl).1, (h.2.2 rfl).2⟩

/-- Claim C7: a Vertex wrapper whose weak back-reference resolves to an
absent context degrades gracefully — the property accessors still operate
on the overlay (set/get round-trips, remove returns the previous value and
subsequent get falls back to the default), and every adjacency query
returns the empty list rather than failing. -/
theorem wrapper_survives_collected_context (v : Vertex) (labels : List String)
    (key : String) (val : Value) (dflt : Option Value) :
    out_edges none v labels = [] ∧ in_edges none v labels = [] ∧
    both_edges none v labels = [] ∧ out_vertices none v labels = [] ∧
    in_vertices none v labels = [] ∧ both_vertices none v labels = [] ∧
    get_property (set_property v key val) key none = some val ∧
    (remove_property v key).1 = dictGet v.properties key ∧
    get_property (remove_property v key).2 key dflt = dflt := by
  refine ⟨rfl, rfl, rfl, rfl, rfl, rfl, ?_, rfl, ?_⟩
  · simp [get_property, set_property, dictGet_dictSet]
  · simp [get_property, remove_property, dictGet_dictDel]

/-- Claim C8: on an open graph, vertices(**F) returns exactly the
registered vertices whose property overlay maps every key of F to a value
exactly equal to the filter value (membership characterization, exact
equality via the Value type, no partial matching), and the empty filter
set returns all registered vertices. -/
theorem vertices_filter_semantics (g : TinkerGraph) (filters : Props)
    (hopen : g.closed = false) :
    ∃ vs, vertices g filters = .ok vs ∧
      (∀ v, v ∈ vs ↔ v ∈ g.vertexReg.map Prod.snd ∧
        ∀ kv ∈ filters, dictGet v.properties kv.1 = some kv.2) ∧
      vertices g [] = .ok (g.vertexReg.map Prod.snd) := by
  have hbase : vertices g [] = .ok (g.vertexReg.map Prod.snd) := by
    simp [vertices, checkNotClosed, hopen]
  by_cases hf : filters.isEmpty
  · have hfe : filters = [] := List.isEmpty_iff.mp hf
    subst hfe
    refine ⟨g.vertexReg.map Prod.snd, hbase, ?_, hbase⟩
    intro v
    constructor
    · intro hv
      exact ⟨hv, fun kv hkv => absurd hkv (List.not_mem_nil kv)⟩
    · exact fun h => h.1
  · refine ⟨(g.vertexReg.map Prod.snd).filter
      (fun v => matchesProperties v.properties filters), ?_, ?_, hbase⟩
    · simp only [vertices, checkNotClosed, hopen, Bool.false_eq_true, if_false]
      rw [if_neg hf]
    · intro v
      rw [List.mem_filter, matchesProperties_iff]

/-- Claim C8 witness: the filter semantics instantiated on a concrete graph
with two registered vertices and the filter name="Bob". -/
theorem vertices_filter_semantics_witness :
    ∃ vs, vertices gW2 [("name", Value.vStr "Bob")] = .ok vs ∧
      (∀ v, v ∈ vs ↔ v ∈ gW2.vertexReg.map Prod.snd ∧
        ∀ kv ∈ [("name", Value.vStr "Bob")], dictGet v.properties kv.1 = some kv.2) ∧
      vertices gW2 [] = .ok (gW2.vertexReg.map Prod.snd) :=
  vertices_filter_semantics gW2 [("name", Value.vStr "Bob")] rfl

/-- Claim C10: on a closed graph the dunder operations __len__ and __str__
raise the closed-graph error (the root TinkerGraphError "Graph has been
closed") rather than returning a value, because both delegate to the count
accessors, which check the closed flag first. -/
theorem dunder_len_str_closed (g : TinkerGraph) (hc : g.closed = true) :
    lenGraph g = .error (.base "Graph has been closed") ∧
    strGraph g = .error (.base "Graph has been closed") := by
  constructor
  · simp [lenGraph, vertex_count, checkNotClosed, hc]
  · simp [strGraph, vertex_count, edge_count, checkNotClosed, hc]

/-- Claim C10 witness: the dunder failures instantiated on a concrete
closed graph. -/
theorem dunder_len_str_closed_witness :
    lenGraph gClosed = .error (.base "Graph has been closed") ∧
    strGraph gClosed = .error (.base "Graph has been closed") :=
  dunder_len_str_closed gClosed rfl

theorem get_vertex_id_fresh (n : NativeGraph) :
    get_vertex_id
      { n with verts := ⟨n.fresh, "v" ++ toString n.autoId⟩ :: n.verts,
               fresh := n.fresh + 1, autoId := n.autoId + 1 }
      n.fresh 256
      = .ok (String.mk (("v" ++ toString n.autoId).data.take (256 - 1))) := by
  have hfind : List.find? (fun w => w.handle = n.fresh)
      (⟨n.fresh, "v" ++ toString n.autoId⟩ :: n.verts)
      = some ⟨n.fresh, "v" ++ toString n.autoId⟩ :=
    List.find?_cons_of_pos _ (by simp)
  simp only [get_vertex_id]
  rw [hfind]
  simp only [natWriteString]
  rw [if_neg (by omega)]

/-- Claim C9: add_vertex with a non-default label L forwards to the native
add-vertex call a property set in which the key "label" is mapped to L,
while the overlay of the returned Vertex equals exactly the props of the caller —
containing no "label" key when props has none — and consequently
vertices(label=L) does not return that vertex. -/
theorem add_vertex_label_not_in_overlay (g : TinkerGraph) (L : String) (props : Props)
    (hopen : g.closed = false) (hL : L ≠ "vertex")
    (hnolabel : dictGet props "label" = none) :
    ∃ v, (add_vertex g (some (Value.vStr L)) none props).1 = .ok v ∧
      v.properties = props ∧
      dictGet v.properties "label" = none ∧
      v.label = L ∧
      (add_vertex g (some (Value.vStr L)) none props).2.natLog
        = g.natLog ++ [NativeCall.callAddVertex none (dictSet props "label" (Value.vStr L))]
          ++ [NativeCall.callGetVertexId g.native.fresh] ∧
      dictGet (dictSet props "label" (Value.vStr L)) "label" = some (Value.vStr L) ∧
      ∃ vs, vertices (add_vertex g (some (Value.vStr L)) none props).2
          [("label", Value.vStr L)] = .ok vs ∧ v ∉ vs := by
  have hadd : add_vertex g (some (Value.vStr L)) none props
      = (.ok (⟨some g.gid, g.native.fresh,
              String.mk (("v" ++ toString g.native.autoId).data.take (256 - 1)),
              L, props, false⟩ : Vertex),
         { g with
           native := { g.native with
             verts := ⟨g.native.fresh, "v" ++ toString g.native.autoId⟩ :: g.native.verts,
             fresh := g.native.fresh + 1, autoId := g.native.autoId + 1 },
           vertexReg := dictSet g.vertexReg g.native.fresh
             ⟨some g.gid, g.native.fresh,
              String.mk (("v" ++ toString g.native.autoId).data.take (256 - 1)),
              L, props, false⟩,
           natLog := g.natLog
             ++ [NativeCall.callAddVertex none (dictSet props "label" (Value.vStr L))]
             ++ [NativeCall.callGetVertexId g.native.fresh] }) := by
    simp only [add_vertex, checkNotClosed, hopen, Bool.false_eq_true, if_false, asStr,
      Option.getD_some, natAddVertex]
    rw [if_pos hL, get_vertex_id_fresh g.native]
  refine ⟨⟨some g.gid, g.native.fresh,
      String.mk (("v" ++ toString g.native.autoId).data.take (256 - 1)),
      L, props, false⟩,
    by rw [hadd], rfl, hnolabel, rfl, by rw [hadd], dictGet_dictSet props "label" (Value.vStr L), ?_⟩
  rw [hadd]
  refine ⟨((dictSet g.vertexReg g.native.fresh
      ⟨some g.gid, g.native.fresh,
       String.mk (("v" ++ toString g.native.autoId).data.take (256 - 1)),
       L, props, false⟩).map Prod.snd).filter
      (fun v => matchesProperties v.properties [("label", Value.vStr L)]), ?_, ?_⟩
  · simp only [vertices, checkNotClosed, hopen, Bool.false_eq_true, if_false,
      List.isEmpty_cons]
  · intro hmem
    have hp := (List.mem_filter.mp hmem).2
    rw [matchesProperties_iff] at hp
    have hcontra := hp ("label", Value.vStr L) (by simp)
    simp only at hcontra
    rw [hnolabel] at hcontra
    cases hcontra

/-- Claim C9 witness: the label-forwarding behaviour instantiated on a
concrete open graph, label "person" and props name="Bob". -/
theorem add_vertex_label_not_in_overlay_witness :
    ∃ v, (add_vertex gW2 (some (Value.vStr "person")) none
        [("name", Value.vStr "Bob")]).1 = .ok v ∧
      v.properties = [("name", Value.vStr "Bob")] ∧
      dictGet v.properties "label" = none ∧
      v.label = "person" ∧
      (add_vertex gW2 (some (Value.vStr "person")) none
          [("name", Value.vStr "Bob")]).2.natLog
        = gW2.natLog ++ [NativeCall.callAddVertex none
            (dictSet [("name", Value.vStr "Bob")] "label" (Value.vStr "person"))]
          ++ [NativeCall.callGetVertexId gW2.native.fresh] ∧
      dictGet (dictSet [("name", Value.vStr "Bob")] "label" (Value.vStr "person")) "label"
        = some (Value.vStr "person") ∧
      ∃ vs, vertices (add_vertex gW2 (some (Value.vStr "person")) none
            [("name", Value.vStr "Bob")]).2
          [("label", Value.vStr "person")] = .ok vs ∧ v ∉ vs :=
  add_vertex_label_not_in_overlay gW2 "person" [("name", Value.vStr "Bob")]
    rfl (by decide) (by decide)

end TinkerGraphs
